import Mathlib

/-!
Verification of the ladder engine in `ladder_bot.py` (Brookhaven ladder bot).

The Python module keeps an ordered list of players (rank = 1-based position),
generates round pairings from that order, and reorders the list after reported
results according to a configurable promotion rule.  This file gives a shallow
embedding of that logic and proves the specified properties about it.

Modelling conventions:
* Python `str` is modelled as `List Char` (`Str`), so every operation is a
  computable function the kernel can evaluate on concrete inputs.
* Python `int` ranks arrive as `Nat` (a negative rank behaves exactly like 0:
  it fails the same `1 <= rank` bound), except where an intermediate value can
  genuinely go negative (`int(text) - 1` in the resolver), which uses `Int`.
* The mutable `LadderService` state is passed explicitly: each method becomes
  a function from the pre-state to the post-state plus its return value.
  `record_result`, which can raise `ValueError`, returns an `Except`.
* `datetime.now()` is impure, so the timestamp is an explicit argument.
-/

namespace LadderBot

/-- Python `str`, modelled as its sequence of characters. -/
abbrev Str := List Char

/-- Python `str.strip()`: remove leading and trailing whitespace. -/
def strip (s : Str) : Str :=
  ((s.dropWhile Char.isWhitespace).reverse.dropWhile Char.isWhitespace).reverse

/-- Python `str.isdigit()`: nonempty and all digits. -/
def isdigit (s : Str) : Bool :=
  !s.isEmpty && s.all Char.isDigit

/-- Python `int(text)` on an all-digit string. -/
def digitsToNat (s : Str) : Nat :=
  s.foldl (fun n c => 10 * n + (c.toNat - ('0').toNat)) 0

/-- Python `str.lower()`. -/
def lower (s : Str) : Str :=
  s.map Char.toLower

/-- Python `needle in haystack` on strings: substring test. -/
def strContains (hay needle : Str) : Bool :=
  match hay with
  | [] => needle.isEmpty
  | c :: t => List.isPrefixOf needle (c :: t) || strContains t needle

/-- Decimal rendering of a natural number (for building messages). -/
def natStr (n : Nat) : Str :=
  Nat.toDigits 10 n

/-- One ladder entry: `{"name": str, "user_id": Optional[int]}`. -/
structure Player where
  name : Str
  user_id : Option Int
deriving DecidableEq, Repr

/-- One element of `state["history"]` as built by `record_result`. -/
structure HistoryEntry where
  timestamp : Str
  round : Nat
  winner_rank_pre : Nat
  loser_rank_pre : Nat
  winner : Str
  loser : Str
  score : Str
  reporter_id : Option Int
  rule : Str
deriving DecidableEq, Repr

/-- The persisted aggregate (`DEFAULT_STATE` keys). A pairing `(a, b)` uses
`b = 0` for a bye, as in the Python tuples stored under `"pairings"`. -/
structure State where
  players : List Player
  pairings : List (Nat × Nat)
  round : Nat
  history : List HistoryEntry
deriving DecidableEq, Repr

/-- `DEFAULT_STATE`: empty players, pairings and history, round 0. -/
def DEFAULT_STATE : State :=
  { players := [], pairings := [], round := 0, history := [] }

/-- The rule string `"SWAP_ONLY"`. -/
def SWAP_ONLY : Str := "SWAP_ONLY".data

/-- The rule string `"ONE_STEP_ALWAYS"`. -/
def ONE_STEP_ALWAYS : Str := "ONE_STEP_ALWAYS".data

/-- Python parallel assignment `xs[i], xs[j] = xs[j], xs[i]`: both right-hand
values are read first, then written to positions `i` and `j`. -/
def listSwap (l : List α) (i j : Nat) : List α :=
  match l[i]?, l[j]? with
  | some a, some b => (l.set i b).set j a
  | _, _ => l

/-- `re.fullmatch(r"<@!?(\d+)>", text)`: a platform mention wrapping a numeric
id. Returns the id when the whole string matches. -/
def parseMention (s : Str) : Option Nat :=
  if List.isPrefixOf ['<', '@'] s && s.getLast? == some '>' then
    let inner := (s.drop 2).dropLast
    let inner := match inner with
      | '!' :: rest => rest
      | _ => inner
    if isdigit inner then some (digitsToNat inner) else none
  else none

/-- The index list of the comprehension
`[i for i, player in enumerate(players) if lowered in player["name"].lower()]`. -/
def substringMatchIndexes (players : List Player) (lowered : Str) : List Nat :=
  players.enum.filterMap
    (fun ip => if strContains (lower ip.2.name) lowered then some ip.1 else none)

/-- `LadderService._resolve_player_index`: translate a free-text token into a
0-based player index, or `none` ("unresolved"). Branches are tried in order
(rank number, mention, exact name, unique partial name); each branch returns
within itself, so a branch whose criteria are met never falls through. -/
def resolve_player_index (players : List Player) (identifier : Str) : Option Nat :=
  let text := strip identifier
  if text.isEmpty then none
  else if isdigit text then
    let idx : Int := (digitsToNat text : Int) - 1
    if 0 ≤ idx && idx < (players.length : Int) then some idx.toNat else none
  else
    match parseMention text with
    | some targetId =>
        players.findIdx? (fun p => p.user_id == some (targetId : Int))
    | none =>
        let lowered := lower text
        match players.findIdx? (fun p => lower p.name == lowered) with
        | some i => some i
        | none =>
            match substringMatchIndexes players lowered with
            | [m] => some m
            | _ => none

/-- `LadderService.add_player`: append at the bottom, return the new rank. -/
def add_player (st : State) (name : Str) (user_id : Option Int) : State × Nat :=
  let players := st.players ++ [{ name := name, user_id := user_id }]
  ({ st with players := players }, players.length)

/-- `LadderService.remove_player`: delete the resolved player, or report
failure when the identifier does not resolve. -/
def remove_player (st : State) (identifier : Str) : State × Bool :=
  match resolve_player_index st.players identifier with
  | none => (st, false)
  | some idx => ({ st with players := st.players.eraseIdx idx }, true)

/-- The message `"No players on the ladder yet. Use /ladder_add first."`. -/
def noPlayersMsg : Str :=
  "No players on the ladder yet. Use /ladder_add first.".data

/-- The message `f"New rank must be between 1 and {total}."`. -/
def rankBoundsMsg (total : Nat) : Str :=
  "New rank must be between 1 and ".data ++ natStr total ++ ".".data

/-- The listing `", ".join(f"#{i + 1} {p["name"]}" for i, p in enumerate(players))`. -/
def ladderListing (players : List Player) : Str :=
  List.intercalate ", ".data
    (players.enum.map (fun ip => '#' :: natStr (ip.1 + 1) ++ ' ' :: ip.2.name))

/-- The three-line failure message of `set_rank` for an unresolved identifier
(it ends by enumerating the current ladder). -/
def couldNotIdentifyMsg (identifier : Str) (players : List Player) : Str :=
  "Couldn’t identify **".data ++ identifier ++ "**.\n".data ++
    "Try rank number, exact name, @mention, or a longer partial.\n".data ++
    "Current ladder: ".data ++ ladderListing players

/-- The success message `f"Moved **{player["name"]}** to rank **#{new_rank}**."`. -/
def movedMsg (playerName : Str) (new_rank : Nat) : Str :=
  "Moved **".data ++ playerName ++ "** to rank **#".data ++ natStr new_rank ++ "**.".data

/-- `LadderService.set_rank`: validate (empty ladder, bounds, resolution),
then `players.pop(idx)` followed by `players.insert(new_rank - 1, player)`.
Returns the post-state with the `(ok, message)` pair. -/
def set_rank (st : State) (identifier : Str) (new_rank : Nat) : State × Bool × Str :=
  let players := st.players
  let total := players.length
  if total = 0 then
    (st, false, noPlayersMsg)
  else if ¬(1 ≤ new_rank ∧ new_rank ≤ total) then
    (st, false, rankBoundsMsg total)
  else
    match resolve_player_index players identifier with
    | none => (st, false, couldNotIdentifyMsg identifier players)
    | some idx =>
        match players[idx]? with
        | none => (st, false, [])  -- unreachable: the resolver only returns in-range indices
        | some player =>
            let players2 := (players.eraseIdx idx).insertIdx (new_rank - 1) player
            ({ st with players := players2 }, true, movedMsg player.name new_rank)

/-- The pairing loop of `generate_pairings`, expressed on the number of ranks
still to pair starting at rank `start`: two ranks make a pairing, a final odd
rank gets a bye `(rank, 0)`. -/
def mkPairs : Nat → Nat → List (Nat × Nat)
  | _, 0 => []
  | start, 1 => [(start, 0)]
  | start, r + 2 => (start, start + 1) :: mkPairs (start + 2) r

/-- `LadderService.generate_pairings`: build the pairings from rank 1 over the
current player count, store them, increment the round, return them. -/
def generate_pairings (st : State) : State × List (Nat × Nat) :=
  let ps := mkPairs 1 st.players.length
  ({ st with pairings := ps, round := st.round + 1 }, ps)

/-- The `ONE_STEP_ALWAYS` branch of `record_result`, acting on 0-based
indices. The winner (if not already first) swaps with the player directly
above; the code then re-tracks the loser index when the loser was that player
(`loser_idx == winner_idx - 1`), and finally the loser (if its tracked index
is not last) swaps with the player directly below. The Python also updates
`winner_idx`, but never reads it again, so it is not tracked here. -/
def oneStepAlwaysUpdate (players : List Player) (winner_idx loser_idx : Nat) : List Player :=
  let step :=
    if 0 < winner_idx then
      (listSwap players (winner_idx - 1) winner_idx,
        if loser_idx = winner_idx - 1 then winner_idx else loser_idx)
    else
      (players, loser_idx)
  if step.2 < step.1.length - 1 then listSwap step.1 (step.2 + 1) step.2 else step.1

/-- `LadderService.record_result`: validate both ranks against `[1, N]`
(raising `ValueError("Invalid ranks")` otherwise), build the history entry
from the pre-match state, apply the configured rule (`ValueError` on an
unknown rule, before anything is appended), then append the entry. -/
def record_result (st : State) (rule : Str) (winner_rank loser_rank : Nat)
    (score : Str) (reporter_id : Option Int) (timestamp : Str) : Except Str State :=
  let players := st.players
  let total := players.length
  if ¬(1 ≤ winner_rank ∧ winner_rank ≤ total ∧ 1 ≤ loser_rank ∧ loser_rank ≤ total) then
    Except.error "Invalid ranks".data
  else
    let winner_idx := winner_rank - 1
    let loser_idx := loser_rank - 1
    let entry : HistoryEntry :=
      { timestamp := timestamp
        round := st.round
        winner_rank_pre := winner_rank
        loser_rank_pre := loser_rank
        winner := ((players[winner_idx]?).map Player.name).getD []
        loser := ((players[loser_idx]?).map Player.name).getD []
        score := score
        reporter_id := reporter_id
        rule := rule }
    if rule = SWAP_ONLY then
      let players2 :=
        if loser_idx < winner_idx then listSwap players winner_idx loser_idx else players
      Except.ok { st with players := players2, history := st.history ++ [entry] }
    else if rule = ONE_STEP_ALWAYS then
      let players2 := oneStepAlwaysUpdate players winner_idx loser_idx
      Except.ok { st with players := players2, history := st.history ++ [entry] }
    else
      Except.error ("Unsupported ladder rule: ".data ++ rule)

/-- `LadderService.recent_history`: Python `self._history()[-limit:]`. For a
positive `limit` this is the suffix of the last `limit` entries; for
`limit = 0` the slice index `-0` is `0`, so the whole history is returned. -/
def recent_history (st : State) (limit : Nat) : List HistoryEntry :=
  if limit = 0 then st.history
  else st.history.drop (st.history.length - limit)

/-- Remove the entries at two distinct positions `i` and `j` of a list,
keeping everything else in order (used to state that an operation preserves
the relative order of all players other than the two it moves). -/
def erase2 (l : List α) (i j : Nat) : List α :=
  (l.eraseIdx (max i j)).eraseIdx (min i j)

/-- Where the loser’s 0-based index points after the winner’s upward swap in
the `ONE_STEP_ALWAYS` branch (the code’s re-tracking of `loser_idx`). -/
def osaLoserMid (winner_idx loser_idx : Nat) : Nat :=
  if 0 < winner_idx ∧ loser_idx = winner_idx - 1 then winner_idx else loser_idx

/-- The loser’s final 0-based index under `ONE_STEP_ALWAYS` on `n` players:
one below its post-winner-swap index, unless it is then last. -/
def osaFinalLoser (n winner_idx loser_idx : Nat) : Nat :=
  if osaLoserMid winner_idx loser_idx < n - 1 then osaLoserMid winner_idx loser_idx + 1
  else osaLoserMid winner_idx loser_idx

/-- The winner’s final 0-based index under `ONE_STEP_ALWAYS`: one above its
start (or 0 if it starts first) — except that when the loser starts exactly
two positions above the winner, the loser’s downward swap exchanges it with
the winner a second time, leaving the winner two positions above its start. -/
def osaFinalWinner (winner_idx loser_idx : Nat) : Nat :=
  if winner_idx = 0 then 0
  else if loser_idx + 2 = winner_idx then winner_idx - 2
  else winner_idx - 1

/-- The index permutation realised by `oneStepAlwaysUpdate` on `n` players:
position `k` of the output holds the input entry at `osaPerm n w l k` (the
two adjacent transpositions applied to `k`, winner’s one last). -/
def osaPerm (n winner_idx loser_idx k : Nat) : Nat :=
  let l1 := osaLoserMid winner_idx loser_idx
  let k1 := if l1 < n - 1 then
      (if k = l1 then l1 + 1 else if k = l1 + 1 then l1 else k)
    else k
  if 0 < winner_idx then
    (if k1 = winner_idx - 1 then winner_idx else if k1 = winner_idx then winner_idx - 1 else k1)
  else k1

/-- A JSON document, as produced by `json.load`. -/
inductive Json where
  | null : Json
  | num : Int → Json
  | str : Str → Json
  | arr : List Json → Json
  | obj : List (Str × Json) → Json
deriving Repr

/-- The JSON document `json.dump` writes for one player. -/
def encodePlayer (p : Player) : Json :=
  Json.obj [("name".data, Json.str p.name),
            ("user_id".data, match p.user_id with
              | none => Json.null
              | some u => Json.num u)]

/-- The JSON document `json.dump` writes for one stored pairing (a two-element
array; tuples serialize as arrays). -/
def encodePairing (p : Nat × Nat) : Json :=
  Json.arr [Json.num p.1, Json.num p.2]

/-- The JSON document `json.dump` writes for one history entry. -/
def encodeHistoryEntry (e : HistoryEntry) : Json :=
  Json.obj [("timestamp".data, Json.str e.timestamp),
            ("round".data, Json.num e.round),
            ("winner_rank_pre".data, Json.num e.winner_rank_pre),
            ("loser_rank_pre".data, Json.num e.loser_rank_pre),
            ("winner".data, Json.str e.winner),
            ("loser".data, Json.str e.loser),
            ("score".data, Json.str e.score),
            ("reporter_id".data, match e.reporter_id with
              | none => Json.null
              | some u => Json.num u),
            ("rule".data, Json.str e.rule)]

/-- The JSON document `json.dump` writes for a whole state. -/
def encodeState (st : State) : Json :=
  Json.obj [("players".data, Json.arr (st.players.map encodePlayer)),
            ("pairings".data, Json.arr (st.pairings.map encodePairing)),
            ("round".data, Json.num st.round),
            ("history".data, Json.arr (st.history.map encodeHistoryEntry))]

/-- The three outcomes `LadderRepository.load` distinguishes: the file is
missing (`FileNotFoundError`), its content is not valid JSON
(`json.JSONDecodeError`), or `json.load` returns a parsed document. -/
inductive ReadResult where
  | fileNotFound : ReadResult
  | jsonDecodeError : ReadResult
  | parsed : Json → ReadResult

/-- `LadderRepository.load`: substitute a (deep copy of the) default state on
a missing file or a JSON decode error; otherwise return whatever document the
file parsed to, with no structural validation. -/
def load (r : ReadResult) : Json :=
  match r with
  | ReadResult.fileNotFound => encodeState DEFAULT_STATE
  | ReadResult.jsonDecodeError => encodeState DEFAULT_STATE
  | ReadResult.parsed j => j

/-- Concrete players used by the spec’s worked scenarios. -/
def pAlice : Player := { name := "Alice".data, user_id := none }

/-- See `pAlice`. -/
def pBob : Player := { name := "Bob".data, user_id := none }

/-- See `pAlice`. -/
def pCharlie : Player := { name := "Charlie".data, user_id := none }

/-- See `pAlice`. -/
def pDiego : Player := { name := "Diego".data, user_id := none }

/-- A player whose name is the digit string "42" (for the resolver claims). -/
def p42 : Player := { name := "42".data, user_id := none }

/-- A player whose name shares the prefix "Ali" with Alice. -/
def pAlina : Player := { name := "Alina".data, user_id := none }

/-- A sample history entry (for the history claims). -/
def eH : HistoryEntry :=
  { timestamp := "t".data
    round := 1
    winner_rank_pre := 1
    loser_rank_pre := 2
    winner := "A".data
    loser := "B".data
    score := "6-0".data
    reporter_id := none
    rule := SWAP_ONLY }

/-! ## Helper lemmas -/

theorem listSwap_length (l : List α) (i j : Nat) : (listSwap l i j).length = l.length := by
  unfold listSwap
  cases l[i]? <;> cases l[j]? <;> simp

theorem listSwap_getElem (l : List α) (i j : Nat) (hi : i < l.length) (hj : j < l.length)
    (k : Nat) :
    (listSwap l i j)[k]? = if k = i then l[j]? else if k = j then l[i]? else l[k]? := by
  have ha := List.getElem?_eq_getElem hi
  have hb := List.getElem?_eq_getElem hj
  simp only [listSwap, ha, hb, List.getElem?_set, List.length_set]
  split_ifs <;> subst_vars <;> first | rfl | omega

theorem getElem?_insertIdx (a : α) :
    ∀ (i : Nat) (l : List α), i ≤ l.length → ∀ (k : Nat),
      (l.insertIdx i a)[k]? = if k < i then l[k]? else if k = i then some a else l[k - 1]?
  | 0, l, _, k => by
    cases k <;> simp [List.insertIdx_zero]
  | i + 1, [], h, k => by
    simp at h
  | i + 1, c :: t, h, 0 => by
    simp [List.insertIdx_succ_cons]
  | i + 1, c :: t, h, k + 1 => by
    have ih := getElem?_insertIdx a i t (by simpa using h) k
    simp only [List.insertIdx_succ_cons, List.getElem?_cons_succ]
    rw [ih]
    rcases Nat.lt_trichotomy k i with hk | hk | hk
    · rw [if_pos hk, if_pos (by omega)]
    · subst hk
      rw [if_neg (by omega), if_pos rfl, if_neg (by omega), if_pos rfl]
    · rw [if_neg (by omega), if_neg (by omega), if_neg (by omega), if_neg (by omega)]
      obtain ⟨m, rfl⟩ : ∃ m, k = m + 1 := ⟨k - 1, by omega⟩
      simp

theorem erase2_getElem_of_lt (l : List α) (i j : Nat) (hij : i < j) (k : Nat) :
    (erase2 l i j)[k]? = if k < i then l[k]? else if k + 1 < j then l[k + 1]? else l[k + 2]? := by
  unfold erase2
  rw [Nat.max_eq_right (Nat.le_of_lt hij), Nat.min_eq_left (Nat.le_of_lt hij)]
  rw [List.getElem?_eraseIdx, List.getElem?_eraseIdx, List.getElem?_eraseIdx]
  split_ifs <;> first | rfl | omega

theorem erase2_getElem_of_ne (l : List α) (i j : Nat) (hij : i ≠ j) (k : Nat) :
    (erase2 l i j)[k]? =
      if k < min i j then l[k]? else if k + 1 < max i j then l[k + 1]? else l[k + 2]? := by
  rcases Nat.lt_or_ge i j with h | h
  · rw [erase2_getElem_of_lt l i j h k, Nat.min_eq_left (Nat.le_of_lt h),
      Nat.max_eq_right (Nat.le_of_lt h)]
  · have h2 : j < i := by omega
    have hcomm : erase2 l i j = erase2 l j i := by
      unfold erase2
      rw [Nat.max_comm, Nat.min_comm]
    rw [hcomm, erase2_getElem_of_lt l j i h2 k, Nat.min_eq_right (Nat.le_of_lt h2),
      Nat.max_eq_left (Nat.le_of_lt h2)]

theorem oneStepAlwaysUpdate_getElem (ps : List Player) (w l : Nat)
    (hw : w < ps.length) (hl : l < ps.length) (k : Nat) :
    (oneStepAlwaysUpdate ps w l)[k]? = ps[osaPerm ps.length w l k]? := by
  have hsl : (listSwap ps (w - 1) w).length = ps.length := listSwap_length ps (w - 1) w
  have hswap1 := listSwap_getElem ps (w - 1) w (by omega) hw
  by_cases hw0 : 0 < w
  · by_cases hadj : l = w - 1
    · simp only [oneStepAlwaysUpdate, osaPerm, osaLoserMid, hw0, hadj, if_true, true_and,
        and_self, hsl]
      by_cases hsec : w < ps.length - 1
      · rw [if_pos hsec, if_pos hsec]
        rw [listSwap_getElem _ (w + 1) w (by omega) (by omega) k]
        simp only [hswap1]
        split_ifs <;> first | rfl | omega | (congr 1; omega)
      · rw [if_neg hsec, if_neg hsec]
        rw [hswap1 k]
        split_ifs <;> first | rfl | omega | (congr 1; omega)
    · simp only [oneStepAlwaysUpdate, osaPerm, osaLoserMid, hw0, hadj, if_true, true_and,
        and_false, if_false, hsl]
      by_cases hsec : l < ps.length - 1
      · rw [if_pos hsec, if_pos hsec]
        rw [listSwap_getElem _ (l + 1) l (by omega) (by omega) k]
        simp only [hswap1]
        split_ifs <;> first | rfl | omega | (congr 1; omega)
      · rw [if_neg hsec, if_neg hsec]
        rw [hswap1 k]
        split_ifs <;> first | rfl | omega | (congr 1; omega)
  · have hw0' : w = 0 := by omega
    subst hw0'
    simp only [oneStepAlwaysUpdate, osaPerm, osaLoserMid, lt_irrefl, false_and, if_false]
    by_cases hsec : l < ps.length - 1
    · rw [if_pos hsec, if_pos hsec]
      rw [listSwap_getElem _ (l + 1) l (by omega) (by omega) k]
      split_ifs <;> first | rfl | omega | (congr 1; omega)
    · rw [if_neg hsec, if_neg hsec]

theorem oneStepAlwaysUpdate_length (ps : List Player) (w l : Nat) :
    (oneStepAlwaysUpdate ps w l).length = ps.length := by
  unfold oneStepAlwaysUpdate
  split_ifs <;> simp [apply_ite List.length, listSwap_length]

theorem erase2_comm (l : List α) (i j : Nat) : erase2 l i j = erase2 l j i := by
  unfold erase2
  rw [Nat.max_comm, Nat.min_comm]

set_option maxHeartbeats 1600000 in
theorem oneStepAlwaysUpdate_erase2 (ps : List Player) (w l : Nat)
    (hw : w < ps.length) (hl : l < ps.length) (hne : w ≠ l) :
    erase2 (oneStepAlwaysUpdate ps w l) (osaFinalWinner w l) (osaFinalLoser ps.length w l)
      = erase2 ps w l := by
  have hcongr : ∀ x y : Nat, x = y → ps[x]? = ps[y]? := fun x y h => by rw [h]
  have hchar := oneStepAlwaysUpdate_getElem ps w l hw hl
  by_cases hw0 : 0 < w
  · by_cases hadj : l = w - 1
    · have hfW : osaFinalWinner w l = w - 1 := by
        unfold osaFinalWinner; split_ifs <;> omega
      by_cases hsec : w < ps.length - 1
      · have hfL : osaFinalLoser ps.length w l = w + 1 := by
          unfold osaFinalLoser osaLoserMid; split_ifs <;> omega
        have hperm : ∀ t, osaPerm ps.length w l t =
            if t = w - 1 then w else if t = w then w + 1 else if t = w + 1 then w - 1 else t := by
          intro t; simp only [osaPerm, osaLoserMid]; split_ifs <;> omega
        rw [hfW, hfL, erase2_comm ps w l]
        apply List.ext_getElem?
        intro k
        rw [erase2_getElem_of_lt _ _ _ (by omega) k, erase2_getElem_of_lt _ _ _ (by omega) k]
        simp only [hchar, hperm]
        split_ifs <;> first | rfl | exact hcongr _ _ (by omega)
      · have hfL : osaFinalLoser ps.length w l = w := by
          unfold osaFinalLoser osaLoserMid; split_ifs <;> omega
        have hperm : ∀ t, osaPerm ps.length w l t =
            if t = w - 1 then w else if t = w then w - 1 else t := by
          intro t; simp only [osaPerm, osaLoserMid]; split_ifs <;> omega
        rw [hfW, hfL, erase2_comm ps w l]
        apply List.ext_getElem?
        intro k
        rw [erase2_getElem_of_lt _ _ _ (by omega) k, erase2_getElem_of_lt _ _ _ (by omega) k]
        simp only [hchar, hperm]
        split_ifs <;> first | rfl | exact hcongr _ _ (by omega)
    · by_cases hl2 : l + 2 = w
      · have hfW : osaFinalWinner w l = w - 2 := by
          unfold osaFinalWinner; split_ifs <;> omega
        have hfL : osaFinalLoser ps.length w l = l + 1 := by
          unfold osaFinalLoser osaLoserMid; split_ifs <;> omega
        have hperm : ∀ t, osaPerm ps.length w l t =
            if t = l then l + 2 else if t = l + 1 then l else if t = l + 2 then l + 1 else t := by
          intro t; simp only [osaPerm, osaLoserMid]; split_ifs <;> omega
        rw [hfW, hfL, erase2_comm ps w l]
        apply List.ext_getElem?
        intro k
        rw [erase2_getElem_of_lt _ _ _ (by omega) k, erase2_getElem_of_lt _ _ _ (by omega) k]
        simp only [hchar, hperm]
        split_ifs <;> first | rfl | exact hcongr _ _ (by omega)
      · have hfW : osaFinalWinner w l = w - 1 := by
          unfold osaFinalWinner; split_ifs <;> omega
        rcases Nat.lt_or_ge l w with hlw | hlw
        · have hfL : osaFinalLoser ps.length w l = l + 1 := by
            unfold osaFinalLoser osaLoserMid; split_ifs <;> omega
          have hperm : ∀ t, osaPerm ps.length w l t =
              if t = l then l + 1 else if t = l + 1 then l
              else if t = w - 1 then w else if t = w then w - 1 else t := by
            intro t; simp only [osaPerm, osaLoserMid]; split_ifs <;> omega
          rw [hfW, hfL, erase2_comm ps w l, erase2_comm _ (w - 1) (l + 1)]
          apply List.ext_getElem?
          intro k
          rw [erase2_getElem_of_lt _ _ _ (by omega) k, erase2_getElem_of_lt _ _ _ (by omega) k]
          simp only [hchar, hperm]
          split_ifs <;> first | rfl | exact hcongr _ _ (by omega)
        · have hlw2 : w < l := by omega
          by_cases hsec : l < ps.length - 1
          · have hfL : osaFinalLoser ps.length w l = l + 1 := by
              unfold osaFinalLoser osaLoserMid; split_ifs <;> omega
            have hperm : ∀ t, osaPerm ps.length w l t =
                if t = w - 1 then w else if t = w then w - 1
                else if t = l then l + 1 else if t = l + 1 then l else t := by
              intro t; simp only [osaPerm, osaLoserMid]; split_ifs <;> omega
            rw [hfW, hfL]
            apply List.ext_getElem?
            intro k
            rw [erase2_getElem_of_lt _ _ _ (by omega) k, erase2_getElem_of_lt _ _ _ (by omega) k]
            simp only [hchar, hperm]
            split_ifs <;> first | rfl | exact hcongr _ _ (by omega)
          · have hfL : osaFinalLoser ps.length w l = l := by
              unfold osaFinalLoser osaLoserMid; split_ifs <;> omega
            have hperm : ∀ t, osaPerm ps.length w l t =
                if t = w - 1 then w else if t = w then w - 1 else t := by
              intro t; simp only [osaPerm, osaLoserMid]; split_ifs <;> omega
            rw [hfW, hfL]
            apply List.ext_getElem?
            intro k
            rw [erase2_getElem_of_lt _ _ _ (by omega) k, erase2_getElem_of_lt _ _ _ (by omega) k]
            simp only [hchar, hperm]
            split_ifs <;> first | rfl | exact hcongr _ _ (by omega)
  · have hl1 : 0 < l := by omega
    have hfW : osaFinalWinner w l = 0 := by
      unfold osaFinalWinner; split_ifs <;> omega
    by_cases hsec : l < ps.length - 1
    · have hfL : osaFinalLoser ps.length w l = l + 1 := by
        unfold osaFinalLoser osaLoserMid; split_ifs <;> omega
      have hperm : ∀ t, osaPerm ps.length w l t =
          if t = l then l + 1 else if t = l + 1 then l else t := by
        intro t; simp only [osaPerm, osaLoserMid]; split_ifs <;> omega
      rw [hfW, hfL]
      apply List.ext_getElem?
      intro k
      rw [erase2_getElem_of_lt _ _ _ (by omega) k, erase2_getElem_of_lt _ _ _ (by omega) k]
      simp only [hchar, hperm]
      split_ifs <;> first | rfl | exact hcongr _ _ (by omega)
    · have hfL : osaFinalLoser ps.length w l = l := by
        unfold osaFinalLoser osaLoserMid; split_ifs <;> omega
      have hperm : ∀ t, osaPerm ps.length w l t = t := by
        intro t; simp only [osaPerm, osaLoserMid]; split_ifs <;> omega
      rw [hfW, hfL]
      apply List.ext_getElem?
      intro k
      rw [erase2_getElem_of_lt _ _ _ (by omega) k, erase2_getElem_of_lt _ _ _ (by omega) k]
      simp only [hchar, hperm]
      split_ifs <;> first | rfl | exact hcongr _ _ (by omega)

theorem mkPairs_length : ∀ (r s : Nat), (mkPairs s r).length = (r + 1) / 2
  | 0, _ => by simp [mkPairs]
  | 1, _ => by simp [mkPairs]
  | r + 2, s => by
    simp only [mkPairs, List.length_cons, mkPairs_length r (s + 2)]
    omega

theorem mkPairs_getElem : ∀ (r s k : Nat),
    (mkPairs s r)[k]? =
      if 2 * k < r then some (s + 2 * k, if 2 * k + 1 < r then s + 2 * k + 1 else 0) else none
  | 0, s, k => by simp [mkPairs]
  | 1, s, 0 => by simp [mkPairs]
  | 1, s, k + 1 => by
    simp only [mkPairs, List.getElem?_cons_succ, List.getElem?_nil]
    rw [if_neg (by omega)]
  | r + 2, s, 0 => by
    simp only [mkPairs, List.getElem?_cons_zero]
    rw [if_pos (by omega), if_pos (by omega)]
    norm_num
  | r + 2, s, k + 1 => by
    simp only [mkPairs, List.getElem?_cons_succ, mkPairs_getElem r (s + 2) k]
    split_ifs <;>
      first
      | rfl
      | omega
      | (exfalso; omega)
      | (simp only [Option.some.injEq, Prod.mk.injEq, and_true, true_and]; omega)

theorem mkPairs_countP : ∀ (r s : Nat), (mkPairs s r).countP (fun p => p.2 == 0) = r % 2
  | 0, _ => by simp [mkPairs]
  | 1, s => by simp [mkPairs, List.countP_cons]
  | r + 2, s => by
    simp only [mkPairs, List.countP_cons, mkPairs_countP r (s + 2), beq_iff_eq]
    rw [if_neg (by omega)]
    omega

/-- C4: `generatePairings` on `N` players yields exactly `⌈N/2⌉` pairings, the
`k`-th pairing being `(2k+1, 2k+2)` (rank pairs in order) with second element
`0` — a bye — exactly when `2k+2 > N`; the number of byes is `N % 2` (one iff
`N` is odd, none otherwise); the stored pairings are replaced wholesale by the
result, the round counter increases by exactly 1, and players and history are
unchanged. -/
theorem generate_pairings_spec (st : State) :
    (generate_pairings st).2.length = (st.players.length + 1) / 2
    ∧ (∀ k : Nat, (generate_pairings st).2[k]? =
        if 2 * k < st.players.length then
          some (2 * k + 1, if 2 * k + 2 ≤ st.players.length then 2 * k + 2 else 0)
        else none)
    ∧ (generate_pairings st).2.countP (fun p => p.2 == 0) = st.players.length % 2
    ∧ (generate_pairings st).1.pairings = (generate_pairings st).2
    ∧ (generate_pairings st).1.round = st.round + 1
    ∧ (generate_pairings st).1.players = st.players
    ∧ (generate_pairings st).1.history = st.history := by
  refine ⟨mkPairs_length st.players.length 1, ?_, mkPairs_countP st.players.length 1,
    rfl, rfl, rfl, rfl⟩
  intro k
  show (mkPairs 1 st.players.length)[k]? = _
  rw [mkPairs_getElem]
  split_ifs <;>
    first
    | rfl
    | omega
    | (exfalso; omega)
    | (simp only [Option.some.injEq, Prod.mk.injEq, and_true, true_and]; omega)

/-- C3: `record_result` with `winner_rank` or `loser_rank` outside `[1, N]`
fails with the `ValueError("Invalid ranks")` error, for any rule. In this
embedding the error carries no successor state, which captures that the
Python validates before any mutation: no history entry is built or appended
and the player list is untouched. -/
theorem record_result_invalid_ranks (st : State) (rule : Str) (winner_rank loser_rank : Nat)
    (score : Str) (reporter_id : Option Int) (timestamp : Str)
    (h : winner_rank = 0 ∨ st.players.length < winner_rank
      ∨ loser_rank = 0 ∨ st.players.length < loser_rank) :
    record_result st rule winner_rank loser_rank score reporter_id timestamp
      = Except.error "Invalid ranks".data := by
  simp only [record_result]
  rw [if_pos (by omega)]

/-- Witness for C3 at a concrete input (2 players, winner rank 10). -/
theorem record_result_invalid_ranks_witness :
    record_result { DEFAULT_STATE with players := [pCharlie, pAlice] }
        SWAP_ONLY 10 1 "6-0".data none "t".data
      = Except.error "Invalid ranks".data :=
  record_result_invalid_ranks _ SWAP_ONLY 10 1 "6-0".data none "t".data (by decide)

/-- C2: under `SWAP_ONLY`, on valid ranks, when the winner’s rank is
numerically greater than the loser’s the two players’ positions are exactly
swapped (every other position unchanged); when the winner’s rank is smaller
the ladder ordering is completely unchanged. -/
theorem record_result_swap_only_spec (st : State) (winner_rank loser_rank : Nat)
    (score : Str) (reporter_id : Option Int) (timestamp : Str)
    (hw1 : 1 ≤ winner_rank) (hw2 : winner_rank ≤ st.players.length)
    (hl1 : 1 ≤ loser_rank) (hl2 : loser_rank ≤ st.players.length) :
    ∃ st2, record_result st SWAP_ONLY winner_rank loser_rank score reporter_id timestamp
        = Except.ok st2
      ∧ (loser_rank < winner_rank →
          st2.players[loser_rank - 1]? = st.players[winner_rank - 1]?
          ∧ st2.players[winner_rank - 1]? = st.players[loser_rank - 1]?
          ∧ ∀ k, k ≠ winner_rank - 1 → k ≠ loser_rank - 1 →
              st2.players[k]? = st.players[k]?)
      ∧ (winner_rank < loser_rank → st2.players = st.players) := by
  simp only [record_result]
  rw [if_neg (by omega)]
  simp only [if_true]
  by_cases hlt : loser_rank - 1 < winner_rank - 1
  · rw [if_pos hlt]
    have hsw := listSwap_getElem st.players (winner_rank - 1) (loser_rank - 1)
      (by omega) (by omega)
    refine ⟨_, rfl, fun _ => ⟨?_, ?_, fun k hk1 hk2 => ?_⟩, fun hgt => by omega⟩
    · rw [hsw (loser_rank - 1), if_neg (by omega), if_pos rfl]
    · rw [hsw (winner_rank - 1), if_pos rfl]
    · rw [hsw k, if_neg hk1, if_neg hk2]
  · rw [if_neg hlt]
    exact ⟨_, rfl, fun hlt2 => by omega, fun _ => rfl⟩

/-- Witness for C2 at the spec’s Scenario B: `[Alice, Bob, Charlie]`,
winner rank 2, loser rank 1. -/
theorem record_result_swap_only_spec_witness :
    ∃ st2, record_result { DEFAULT_STATE with players := [pAlice, pBob, pCharlie] }
        SWAP_ONLY 2 1 "6-3 6-4".data (some 123) "t".data = Except.ok st2
      ∧ (1 < 2 →
          st2.players[0]? = [pAlice, pBob, pCharlie][1]?
          ∧ st2.players[1]? = [pAlice, pBob, pCharlie][0]?
          ∧ ∀ k, k ≠ 1 → k ≠ 0 → st2.players[k]? = [pAlice, pBob, pCharlie][k]?)
      ∧ (2 < 1 → st2.players = [pAlice, pBob, pCharlie]) :=
  record_result_swap_only_spec _ 2 1 "6-3 6-4".data (some 123) "t".data
    (by decide) (by decide) (by decide) (by decide)

/-- C10: `record_result` with `winner_rank = loser_rank = r` (valid `r`) does
not fail under either supported rule: it returns a state whose history is the
old history plus one entry whose winner and loser name the same player, and
under `SWAP_ONLY` the player ordering is unchanged. -/
theorem record_result_same_rank_spec (st : State) (r : Nat) (score : Str)
    (reporter_id : Option Int) (timestamp : Str) (rule : Str)
    (h1 : 1 ≤ r) (h2 : r ≤ st.players.length)
    (hrule : rule = SWAP_ONLY ∨ rule = ONE_STEP_ALWAYS) :
    ∃ st2 e, record_result st rule r r score reporter_id timestamp = Except.ok st2
      ∧ st2.history = st.history ++ [e]
      ∧ e.winner = e.loser
      ∧ (rule = SWAP_ONLY → st2.players = st.players) := by
  rcases hrule with h | h <;> subst h
  · simp only [record_result]
    rw [if_neg (by omega)]
    simp only [if_true]
    rw [if_neg (by omega)]
    exact ⟨_, _, rfl, rfl, rfl, fun _ => rfl⟩
  · simp only [record_result]
    rw [if_neg (by omega), if_neg (by decide)]
    simp only [if_true]
    exact ⟨_, _, rfl, rfl, rfl, fun hc => absurd hc (by decide)⟩

/-- Witness for C10: one player, `r = 1`, `SWAP_ONLY`. -/
theorem record_result_same_rank_spec_witness :
    ∃ st2 e, record_result { DEFAULT_STATE with players := [pAlice] }
        SWAP_ONLY 1 1 "6-0".data none "t".data = Except.ok st2
      ∧ st2.history = ({ DEFAULT_STATE with players := [pAlice] } : State).history ++ [e]
      ∧ e.winner = e.loser
      ∧ (SWAP_ONLY = SWAP_ONLY → st2.players = [pAlice]) :=
  record_result_same_rank_spec _ 1 "6-0".data none "t".data SWAP_ONLY
    (by decide) (by decide) (Or.inl rfl)

set_option maxHeartbeats 1600000 in
theorem osaPerm_finalWinner (n w l : Nat) (hw : w < n) (hl : l < n) (hne : w ≠ l) :
    osaPerm n w l (osaFinalWinner w l) = w := by
  by_cases hw0 : 0 < w
  · by_cases hadj : l = w - 1
    · rw [show osaFinalWinner w l = w - 1 from by unfold osaFinalWinner; split_ifs <;> omega]
      simp only [osaPerm, osaLoserMid]
      split_ifs <;> first | omega | (exfalso; assumption)
    · by_cases hl2 : l + 2 = w
      · rw [show osaFinalWinner w l = w - 2 from by unfold osaFinalWinner; split_ifs <;> omega]
        simp only [osaPerm, osaLoserMid]
        split_ifs <;> first | omega | (exfalso; assumption)
      · rw [show osaFinalWinner w l = w - 1 from by unfold osaFinalWinner; split_ifs <;> omega]
        simp only [osaPerm, osaLoserMid]
        split_ifs <;> first | omega | (exfalso; assumption)
  · rw [show osaFinalWinner w l = 0 from by unfold osaFinalWinner; split_ifs <;> omega]
    simp only [osaPerm, osaLoserMid]
    split_ifs <;> first | omega | (exfalso; assumption)

set_option maxHeartbeats 1600000 in
theorem osaPerm_finalLoser (n w l : Nat) (hw : w < n) (hl : l < n) (hne : w ≠ l) :
    osaPerm n w l (osaFinalLoser n w l) = l := by
  by_cases hw0 : 0 < w
  · by_cases hadj : l = w - 1
    · by_cases hsec : w < n - 1
      · rw [show osaFinalLoser n w l = w + 1 from by
          unfold osaFinalLoser osaLoserMid; split_ifs <;> omega]
        simp only [osaPerm, osaLoserMid]
        split_ifs <;> first | omega | (exfalso; assumption)
      · rw [show osaFinalLoser n w l = w from by
          unfold osaFinalLoser osaLoserMid; split_ifs <;> omega]
        simp only [osaPerm, osaLoserMid]
        split_ifs <;> first | omega | (exfalso; assumption)
    · by_cases hsec : l < n - 1
      · rw [show osaFinalLoser n w l = l + 1 from by
          unfold osaFinalLoser osaLoserMid; split_ifs <;> omega]
        simp only [osaPerm, osaLoserMid]
        split_ifs <;> first | omega | (exfalso; assumption)
      · rw [show osaFinalLoser n w l = l from by
          unfold osaFinalLoser osaLoserMid; split_ifs <;> omega]
        simp only [osaPerm, osaLoserMid]
        split_ifs <;> first | omega | (exfalso; assumption)
  · by_cases hsec : l < n - 1
    · rw [show osaFinalLoser n w l = l + 1 from by
        unfold osaFinalLoser osaLoserMid; split_ifs <;> omega]
      simp only [osaPerm, osaLoserMid]
      split_ifs <;> first | omega | (exfalso; assumption)
    · rw [show osaFinalLoser n w l = l from by
        unfold osaFinalLoser osaLoserMid; split_ifs <;> omega]
      simp only [osaPerm, osaLoserMid]
      split_ifs <;> first | omega | (exfalso; assumption)

/-- C1 (amended): under `ONE_STEP_ALWAYS`, on a ladder of `N ≥ 2` players and
valid distinct ranks, `record_result` first swaps the winner one position
toward rank 1 (no move if the winner is already rank 1), then swaps the loser
— at its re-tracked index after that first swap — one position toward the
bottom (no move if, after the winner’s upward swap, the loser is last).  The
loser therefore ends at index `osaFinalLoser`, and the winner ends exactly
one position above its start — EXCEPT when the loser starts exactly two
positions above the winner (`loser_rank + 2 = winner_rank`), where the
loser’s downward swap passes through the winner’s new slot and the winner
ends two positions above its start (see `osaFinalWinner`).  Every position is
given by the permutation `osaPerm`; all players other than winner and loser
keep their relative order (the `erase2` equation); and in particular on
`[Charlie, Alice, Diego]` with winner rank 3 and loser rank 2 the ladder
becomes `[Charlie, Diego, Alice]`. -/
theorem record_result_one_step_always_spec (st : State) (winner_rank loser_rank : Nat)
    (score : Str) (reporter_id : Option Int) (timestamp : Str)
    (hw1 : 1 ≤ winner_rank) (hw2 : winner_rank ≤ st.players.length)
    (hl1 : 1 ≤ loser_rank) (hl2 : loser_rank ≤ st.players.length)
    (hne : winner_rank ≠ loser_rank) :
    ∃ st2, record_result st ONE_STEP_ALWAYS winner_rank loser_rank score reporter_id timestamp
        = Except.ok st2
      ∧ st2.players.length = st.players.length
      ∧ (∀ k, st2.players[k]? =
          st.players[osaPerm st.players.length (winner_rank - 1) (loser_rank - 1) k]?)
      ∧ st2.players[osaFinalWinner (winner_rank - 1) (loser_rank - 1)]?
          = st.players[winner_rank - 1]?
      ∧ st2.players[osaFinalLoser st.players.length (winner_rank - 1) (loser_rank - 1)]?
          = st.players[loser_rank - 1]?
      ∧ erase2 st2.players (osaFinalWinner (winner_rank - 1) (loser_rank - 1))
            (osaFinalLoser st.players.length (winner_rank - 1) (loser_rank - 1))
          = erase2 st.players (winner_rank - 1) (loser_rank - 1)
      ∧ (record_result { DEFAULT_STATE with players := [pCharlie, pAlice, pDiego] }
            ONE_STEP_ALWAYS 3 2 "7-6".data none "t".data).toOption.map State.players
          = some [pCharlie, pDiego, pAlice] := by
  simp only [record_result]
  rw [if_neg (by omega), if_neg (by decide)]
  simp only [if_true]
  refine ⟨_, rfl, oneStepAlwaysUpdate_length _ _ _,
    fun k => oneStepAlwaysUpdate_getElem _ _ _ (by omega) (by omega) k, ?_, ?_,
    oneStepAlwaysUpdate_erase2 _ _ _ (by omega) (by omega) (by omega), by decide⟩
  · rw [oneStepAlwaysUpdate_getElem _ _ _ (by omega) (by omega),
      osaPerm_finalWinner _ _ _ (by omega) (by omega) (by omega)]
  · rw [oneStepAlwaysUpdate_getElem _ _ _ (by omega) (by omega),
      osaPerm_finalLoser _ _ _ (by omega) (by omega) (by omega)]

/-- C1 counterexample: on ladder `[Alice, Bob, Charlie]` (N = 3) with the
valid distinct ranks winner 3, loser 1, the code produces
`[Charlie, Alice, Bob]`: the winner (Charlie, pre-match rank 3) does NOT end
at rank 2 — one position toward rank 1 — but at rank 1, two positions up,
because the loser’s downward swap exchanges it with the winner again. -/
theorem record_result_one_step_always_counterexample :
    (record_result { DEFAULT_STATE with players := [pAlice, pBob, pCharlie] }
        ONE_STEP_ALWAYS 3 1 "6-0".data none "t".data).toOption.map State.players
      = some [pCharlie, pAlice, pBob]
    ∧ [pCharlie, pAlice, pBob][1]? = some pAlice
    ∧ [pCharlie, pAlice, pBob][0]? = some pCharlie
    ∧ pAlice ≠ pCharlie := by decide

/-- Witness for C1 at the spec’s Scenario E: `[Charlie, Alice, Diego]`,
winner rank 3, loser rank 2. -/
theorem record_result_one_step_always_spec_witness :
    ∃ st2, record_result { DEFAULT_STATE with players := [pCharlie, pAlice, pDiego] }
        ONE_STEP_ALWAYS 3 2 "7-6".data none "t".data = Except.ok st2
      ∧ st2.players.length = 3
      ∧ (∀ k, st2.players[k]? = [pCharlie, pAlice, pDiego][osaPerm 3 2 1 k]?)
      ∧ st2.players[osaFinalWinner 2 1]? = [pCharlie, pAlice, pDiego][2]?
      ∧ st2.players[osaFinalLoser 3 2 1]? = [pCharlie, pAlice, pDiego][1]?
      ∧ erase2 st2.players (osaFinalWinner 2 1) (osaFinalLoser 3 2 1)
          = erase2 [pCharlie, pAlice, pDiego] 2 1
      ∧ (record_result { DEFAULT_STATE with players := [pCharlie, pAlice, pDiego] }
            ONE_STEP_ALWAYS 3 2 "7-6".data none "t".data).toOption.map State.players
          = some [pCharlie, pDiego, pAlice] :=
  record_result_one_step_always_spec _ 3 2 "7-6".data none "t".data
    (by decide) (by decide) (by decide) (by decide) (by decide)

/-- C7 (amended): `load` substitutes the default empty state when the file is
missing or its content is not syntactically valid JSON, and raises nothing in
those cases; but any syntactically valid JSON document — including one that
does not have the expected structure — is returned as-is, with no structural
validation (so a previously saved state is returned intact). -/
theorem load_spec :
    load ReadResult.fileNotFound = encodeState DEFAULT_STATE
    ∧ load ReadResult.jsonDecodeError = encodeState DEFAULT_STATE
    ∧ ∀ j : Json, load (ReadResult.parsed j) = j :=
  ⟨rfl, rfl, fun _ => rfl⟩

/-- C7 counterexample: a file containing the valid JSON document `[]` parses
fine, is not the expected structure, and yet `load` returns it unchanged
rather than a fresh empty state. -/
theorem load_counterexample :
    load (ReadResult.parsed (Json.arr [])) = Json.arr []
    ∧ Json.arr [] ≠ encodeState DEFAULT_STATE :=
  ⟨rfl, fun h => Json.noConfusion h⟩

/-- C8 (amended): for every `limit ≥ 1`, `recent_history` returns exactly the
last `min limit length` entries in chronological order (it is a suffix of the
history of that length) and touches nothing; but for `limit = 0` the Python
slice `history[-0:]` is `history[0:]`, so the ENTIRE history is returned, not
zero entries. -/
theorem recent_history_spec :
    (∀ (st : State) (limit : Nat), 1 ≤ limit →
        (recent_history st limit).length = min limit st.history.length
        ∧ (recent_history st limit) <:+ st.history)
    ∧ ∀ st : State, recent_history st 0 = st.history := by
  constructor
  · intro st limit h
    unfold recent_history
    rw [if_neg (by omega)]
    exact ⟨by rw [List.length_drop]; omega, List.drop_suffix _ _⟩
  · intro st
    simp [recent_history]

/-- C8 counterexample: with a one-entry history, `recentHistory(0)` returns
that whole history (one entry), not the last `min(0, 1) = 0` entries. -/
theorem recent_history_counterexample :
    recent_history { DEFAULT_STATE with history := [eH] } 0 = [eH]
    ∧ (recent_history { DEFAULT_STATE with history := [eH] } 0).length ≠
        min 0 ({ DEFAULT_STATE with history := [eH] } : State).history.length := by
  constructor
  · rfl
  · decide

/-- Witness for C8 at a concrete input (one entry, limit 1). -/
theorem recent_history_spec_witness :
    (recent_history { DEFAULT_STATE with history := [eH] } 1).length
        = min 1 ({ DEFAULT_STATE with history := [eH] } : State).history.length
    ∧ (recent_history { DEFAULT_STATE with history := [eH] } 1) <:+
        ({ DEFAULT_STATE with history := [eH] } : State).history :=
  recent_history_spec.1 _ 1 (by decide)

/-- C9 (amended): the code enforces no uniqueness of `external_id`:
`add_player` appends unconditionally even when another player already carries
the very same id, so a state with two distinct players sharing a non-null
`external_id` is reachable from the empty state by two `addPlayer` calls; a
platform-mention lookup then resolves to the first (topmost) matching
player. -/
theorem add_player_no_uniqueness_spec :
    (∀ (st : State) (name : Str) (uid : Int), (∃ q ∈ st.players, q.user_id = some uid) →
        (add_player st name (some uid)).1.players
            = st.players ++ [{ name := name, user_id := some uid }]
        ∧ (add_player st name (some uid)).2 = st.players.length + 1)
    ∧ (∀ (u : Int) (n1 n2 : Str),
        (add_player (add_player DEFAULT_STATE n1 (some u)).1 n2 (some u)).1.players
          = [{ name := n1, user_id := some u }, { name := n2, user_id := some u }])
    ∧ resolve_player_index [{ name := "A".data, user_id := some 5 },
        { name := "B".data, user_id := some 5 }] "<@5>".data = some 0 := by
  refine ⟨fun st name uid _ => ⟨rfl, by simp [add_player]⟩, fun u n1 n2 => rfl, by decide⟩

/-- C9 counterexample: starting from the empty state, two `addPlayer` calls
with the same `external_id` 5 produce a reachable state whose two distinct
players both carry the non-null id 5. -/
theorem external_id_uniqueness_counterexample :
    (add_player (add_player DEFAULT_STATE "A".data (some 5)).1 "B".data (some 5)).1.players[0]?
        = some { name := "A".data, user_id := some 5 }
    ∧ (add_player (add_player DEFAULT_STATE "A".data (some 5)).1 "B".data (some 5)).1.players[1]?
        = some { name := "B".data, user_id := some 5 }
    ∧ ({ name := "A".data, user_id := some 5 } : Player)
        ≠ { name := "B".data, user_id := some 5 } := by decide

/-- Witness for C9: appending a duplicate id onto a ladder that already
holds it. -/
theorem add_player_no_uniqueness_spec_witness :
    (add_player { DEFAULT_STATE with players := [{ name := "A".data, user_id := some 5 }] }
        "B".data (some 5)).1.players
      = [{ name := "A".data, user_id := some 5 }] ++ [{ name := "B".data, user_id := some 5 }]
    ∧ (add_player { DEFAULT_STATE with players := [{ name := "A".data, user_id := some 5 }] }
        "B".data (some 5)).2 = 2 :=
  add_player_no_uniqueness_spec.1 _ "B".data 5 (by decide)

theorem isPrefixOf_self (l : Str) : List.isPrefixOf l l = true := by
  induction l with
  | nil => rfl
  | cons c t ih => simp [List.isPrefixOf, ih]

theorem strContains_self (b : Str) : strContains b b = true := by
  cases b with
  | nil => rfl
  | cons c t => simp [strContains, isPrefixOf_self]

theorem strContains_append_left (a b c : Str) (h : strContains b c = true) :
    strContains (a ++ b) c = true := by
  induction a with
  | nil => simpa using h
  | cons x t ih => simp [strContains, ih]

theorem couldNotIdentifyMsg_contains_listing (identifier : Str) (players : List Player) :
    strContains (couldNotIdentifyMsg identifier players) (ladderListing players) = true := by
  unfold couldNotIdentifyMsg
  exact strContains_append_left _ _ _ (strContains_self _)

/-- C5 (amended): `set_rank` fails, leaving the state unchanged, when the
ladder is empty, when `new_rank` is outside `[1, N]`, or when the identifier
does not resolve (and in that last case the message enumerates the current
ladder).  On success it removes the resolved player from its position `idx`
and reinserts it at 0-based position `new_rank - 1` as a single move.  The
players that move by one slot are those in the CLOSED span between the old
and the new position EXCLUDING the old position itself but INCLUDING the one
at the destination (the claim’s "strictly between" misses the player at the
destination slot, which also shifts); every player outside that span is
unchanged. -/
theorem set_rank_spec (st : State) (identifier : Str) (new_rank : Nat) :
    (st.players.length = 0 →
        set_rank st identifier new_rank = (st, false, noPlayersMsg))
    ∧ (st.players.length ≠ 0 → ¬(1 ≤ new_rank ∧ new_rank ≤ st.players.length) →
        set_rank st identifier new_rank = (st, false, rankBoundsMsg st.players.length))
    ∧ (st.players.length ≠ 0 → (1 ≤ new_rank ∧ new_rank ≤ st.players.length) →
        resolve_player_index st.players identifier = none →
        set_rank st identifier new_rank
            = (st, false, couldNotIdentifyMsg identifier st.players)
        ∧ strContains (couldNotIdentifyMsg identifier st.players)
            (ladderListing st.players) = true)
    ∧ ∀ idx p, (1 ≤ new_rank ∧ new_rank ≤ st.players.length) →
        resolve_player_index st.players identifier = some idx →
        st.players[idx]? = some p →
        (set_rank st identifier new_rank).2.1 = true
        ∧ (set_rank st identifier new_rank).1.players
            = (st.players.eraseIdx idx).insertIdx (new_rank - 1) p
        ∧ (set_rank st identifier new_rank).1.players.length = st.players.length
        ∧ (set_rank st identifier new_rank).1.players[new_rank - 1]? = some p
        ∧ (∀ j, j < idx → j < new_rank - 1 →
            (set_rank st identifier new_rank).1.players[j]? = st.players[j]?)
        ∧ (∀ j, idx < j → new_rank - 1 < j →
            (set_rank st identifier new_rank).1.players[j]? = st.players[j]?)
        ∧ (idx < new_rank - 1 → ∀ j, idx ≤ j → j < new_rank - 1 →
            (set_rank st identifier new_rank).1.players[j]? = st.players[j + 1]?)
        ∧ (new_rank - 1 < idx → ∀ j, new_rank - 1 < j → j ≤ idx →
            (set_rank st identifier new_rank).1.players[j]? = st.players[j - 1]?) := by
  refine ⟨?_, ?_, ?_, ?_⟩
  · intro h0
    simp only [set_rank]
    rw [if_pos h0]
  · intro h0 hbad
    simp only [set_rank]
    rw [if_neg h0, if_pos hbad]
  · intro h0 hr hres
    refine ⟨?_, couldNotIdentifyMsg_contains_listing identifier st.players⟩
    simp only [set_rank]
    rw [if_neg h0, if_neg (not_not_intro hr), hres]
  · intro idx p hr hres hp
    have hidx : idx < st.players.length := by
      by_contra hcon
      rw [List.getElem?_eq_none (by omega)] at hp
      exact Option.noConfusion hp
    have hlenE : (st.players.eraseIdx idx).length = st.players.length - 1 := by
      rw [List.length_eraseIdx, if_pos hidx]
    have hr1 : new_rank - 1 ≤ (st.players.eraseIdx idx).length := by omega
    have hred : set_rank st identifier new_rank
        = ({ st with players := (st.players.eraseIdx idx).insertIdx (new_rank - 1) p },
            true, movedMsg p.name new_rank) := by
      simp only [set_rank, hres, hp]
      rw [if_neg (by omega), if_neg (not_not_intro hr)]
    have hins := getElem?_insertIdx p (new_rank - 1) (st.players.eraseIdx idx) hr1
    refine ⟨by rw [hred], by rw [hred], ?_, ?_, ?_, ?_, ?_, ?_⟩
    · rw [hred]
      show ((st.players.eraseIdx idx).insertIdx (new_rank - 1) p).length = st.players.length
      rw [List.length_insertIdx _ _ hr1, hlenE]
      omega
    · rw [hred]
      show ((st.players.eraseIdx idx).insertIdx (new_rank - 1) p)[new_rank - 1]? = some p
      rw [hins (new_rank - 1), if_neg (lt_irrefl _), if_pos rfl]
    · intro j hj1 hj2
      rw [hred]
      show ((st.players.eraseIdx idx).insertIdx (new_rank - 1) p)[j]? = st.players[j]?
      rw [hins j, if_pos hj2, List.getElem?_eraseIdx, if_pos hj1]
    · intro j hj1 hj2
      rw [hred]
      show ((st.players.eraseIdx idx).insertIdx (new_rank - 1) p)[j]? = st.players[j]?
      rw [hins j, if_neg (by omega), if_neg (by omega), List.getElem?_eraseIdx,
        if_neg (by omega)]
      congr 1
      omega
    · intro hlt j hj1 hj2
      rw [hred]
      show ((st.players.eraseIdx idx).insertIdx (new_rank - 1) p)[j]? = st.players[j + 1]?
      rw [hins j, if_pos hj2, List.getElem?_eraseIdx, if_neg (by omega)]
    · intro hlt j hj1 hj2
      rw [hred]
      show ((st.players.eraseIdx idx).insertIdx (new_rank - 1) p)[j]? = st.players[j - 1]?
      rw [hins j, if_neg (by omega), if_neg (by omega), List.getElem?_eraseIdx,
        if_pos (by omega)]

/-- C5 counterexample: on `[Alice, Bob, Charlie]`, `setRank("Alice", 3)`
succeeds with ladder `[Bob, Charlie, Alice]`.  Charlie sits at position 2 —
the destination, NOT strictly between the old position 0 and the new
position 2 — yet changes slot (index 2 to index 1), contradicting the
claim’s "all others unchanged". -/
theorem set_rank_counterexample :
    (set_rank { DEFAULT_STATE with players := [pAlice, pBob, pCharlie] }
        "Alice".data 3).1.players = [pBob, pCharlie, pAlice]
    ∧ (set_rank { DEFAULT_STATE with players := [pAlice, pBob, pCharlie] }
        "Alice".data 3).2.1 = true
    ∧ [pBob, pCharlie, pAlice][2]? ≠ some pCharlie
    ∧ pAlice ≠ pCharlie := by decide

/-- Witness for C5: moving Bob from rank 2 to rank 1 on `[Alice, Bob]`. -/
theorem set_rank_spec_witness :
    (set_rank { DEFAULT_STATE with players := [pAlice, pBob] } "Bob".data 1).2.1 = true
    ∧ (set_rank { DEFAULT_STATE with players := [pAlice, pBob] } "Bob".data 1).1.players
        = (([pAlice, pBob] : List Player).eraseIdx 1).insertIdx 0 pBob
    ∧ (set_rank { DEFAULT_STATE with players := [pAlice, pBob] } "Bob".data 1).1.players.length
        = ([pAlice, pBob] : List Player).length
    ∧ (set_rank { DEFAULT_STATE with players := [pAlice, pBob] } "Bob".data 1).1.players[0]?
        = some pBob
    ∧ (∀ j, j < 1 → j < 0 →
        (set_rank { DEFAULT_STATE with players := [pAlice, pBob] } "Bob".data 1).1.players[j]?
          = [pAlice, pBob][j]?)
    ∧ (∀ j, 1 < j → 0 < j →
        (set_rank { DEFAULT_STATE with players := [pAlice, pBob] } "Bob".data 1).1.players[j]?
          = [pAlice, pBob][j]?)
    ∧ (1 < 0 → ∀ j, 1 ≤ j → j < 0 →
        (set_rank { DEFAULT_STATE with players := [pAlice, pBob] } "Bob".data 1).1.players[j]?
          = [pAlice, pBob][j + 1]?)
    ∧ (0 < 1 → ∀ j, 0 < j → j ≤ 1 →
        (set_rank { DEFAULT_STATE with players := [pAlice, pBob] } "Bob".data 1).1.players[j]?
          = [pAlice, pBob][j - 1]?) :=
  (set_rank_spec { DEFAULT_STATE with players := [pAlice, pBob] } "Bob".data 1).2.2.2
    1 pBob (by decide) (by decide) (by decide)

/-- C6: identifier resolution tries its branches in fixed order with no
fallthrough once a branch’s criteria are met: an all-digit (stripped) token
whose value is outside `[1, N]` resolves to unresolved, no matter what the
player names are (first conjunct — note nothing in it constrains the names,
and the concrete conjunct shows a ladder whose only player is literally
named "42"); and a non-digit, non-mention, non-exact-match token whose
case-insensitive substring matches hit zero or more than one names resolves
to unresolved (second conjunct, plus both concrete cases). -/
theorem resolve_player_index_spec :
    (∀ (players : List Player) (identifier : Str),
        isdigit (strip identifier) = true →
        (digitsToNat (strip identifier) = 0
          ∨ players.length < digitsToNat (strip identifier)) →
        resolve_player_index players identifier = none)
    ∧ (∀ (players : List Player) (identifier : Str),
        (strip identifier).isEmpty = false →
        isdigit (strip identifier) = false →
        parseMention (strip identifier) = none →
        players.findIdx? (fun p => lower p.name == lower (strip identifier)) = none →
        (substringMatchIndexes players (lower (strip identifier))).length ≠ 1 →
        resolve_player_index players identifier = none)
    ∧ resolve_player_index [p42] "42".data = none
    ∧ resolve_player_index [pAlice, pAlina] "Ali".data = none
    ∧ resolve_player_index [pAlice, pAlina] "zzz".data = none := by
  refine ⟨?_, ?_, by decide, by decide, by decide⟩
  · intro players identifier hdig hout
    have hne : (strip identifier).isEmpty = false := by
      cases hE : (strip identifier).isEmpty
      · rfl
      · unfold isdigit at hdig
        rw [hE] at hdig
        simp at hdig
    simp only [resolve_player_index, hne, Bool.false_eq_true, if_false, hdig, if_true]
    rw [if_neg]
    simp only [Bool.and_eq_true, decide_eq_true_eq, not_and]
    intro h1
    omega
  · intro players identifier hne hdig hmention hexact hcount
    simp only [resolve_player_index, hne, Bool.false_eq_true, if_false, hdig, hmention,
      hexact]
    rcases hms : substringMatchIndexes players (lower (strip identifier)) with _ | ⟨m, _ | ⟨m2, t⟩⟩
    · rfl
    · rw [hms] at hcount
      simp at hcount
    · rfl

/-- Witness for C6: on a two-player ladder, the all-digit token "7" is out of
range and resolves to unresolved. -/
theorem resolve_player_index_spec_witness :
    resolve_player_index [pAlice, pBob] "7".data = none :=
  resolve_player_index_spec.1 [pAlice, pBob] "7".data (by decide) (by decide)

end LadderBot
